import Mathlib

/-
Verification of the finder / association-resolution core of the pop library
(`finders.go`, `associations/has_one_association.go`).

The Go code is shallowly embedded: the `Query` request descriptor becomes a
Lean structure, each Go statement that mutates a query becomes a functional
update, Go `int` becomes `Int`, Go errors become an explicit `GoErr` type
(`nil` = `none`), and a Go runtime fault (integer division by zero) becomes
an `Option` returning `none`.  External collaborators (the SQL dialect, the
store) are parameterised away: the embedding models the query state handed
to them and the error/control flow around them.
-/

namespace Pop

/-- The `Paginator` attached to a query (`PerPage`, and after execution
`TotalEntriesSize`, `CurrentEntriesSize`, `TotalPages`); Go `int` fields
become `Int`. -/
structure Paginator where
  PerPage : Int
  TotalEntriesSize : Int
  CurrentEntriesSize : Int
  TotalPages : Int
deriving DecidableEq, Repr

/-- The mutable request descriptor `Query` (finders.go / query.go): WHERE
clauses, ORDER clauses (`orderClauses`, a list of clause fragments — src
resets it with `clauses{}`), `limitResults`, the optional `Paginator`, the
eager flag and field list, and `addColumns` filled by `Select`.  The
non-owning `Connection` reference is modelled separately where a claim
needs it. -/
structure Query where
  whereClauses : List String
  orderClauses : List String
  limitResults : Int
  Paginator : Option Paginator
  eager : Bool
  eagerFields : List String
  addColumns : List String
deriving DecidableEq, Repr

/-- Modelled from the spec: `Q(c)` (query.go, not under src/) opens a fresh
query with empty clause state ("directly on a Connection, which implicitly
opens a fresh query"). -/
def newQuery : Query :=
  { whereClauses := [], orderClauses := [], limitResults := 0,
    Paginator := none, eager := false, eagerFields := [], addColumns := [] }

/-- Modelled from the spec: `Query.Order` (the Clause Accumulator, query.go,
not under src/) is a chained builder call that adds an ORDER clause to the
query's list of ORDER clauses (the spec's Query state holds "ORDER clauses";
`finders.go` resets that list with `clauses{}`, so `Order` appends to it). -/
def Query.Order (q : Query) (stmt : String) : Query :=
  { q with orderClauses := q.orderClauses ++ [stmt] }

/-- Modelled from the spec: `Query.Limit` (query.go, not under src/) records
the LIMIT value on the query ("applies an implicit LIMIT of 1" is realised
by `q.Limit(1)`). -/
def Query.Limit (q : Query) (n : Int) : Query :=
  { q with limitResults := n }

/-- Modelled from the spec: `Query.Clone` (query.go, not under src/) copies
the source query's state into the target, used so that a derived query
"must not mutate the original". -/
def cloneInto (src tgt : Query) : Query :=
  { tgt with
    whereClauses := src.whereClauses, orderClauses := src.orderClauses,
    limitResults := src.limitResults, Paginator := src.Paginator,
    eager := src.eager, eagerFields := src.eagerFields,
    addColumns := src.addColumns }

/-- `Query.Last`, query-building part (finders.go lines 108-110): before the
single-row SELECT is executed, `Last` runs `q.Limit(1)` and then
`q.Order("created_at DESC, id DESC")`.  The resulting query state is what
`SelectOne` receives. -/
def lastQuery (q : Query) : Query :=
  (q.Limit 1).Order "created_at DESC, id DESC"

/-- `strings.TrimSpace` (Go): remove leading and trailing whitespace.
(Go trims Unicode space; the model trims `Char.isWhitespace` — space, tab,
CR, LF — which agrees on the ASCII whitespace relevant to column names.) -/
def trimSpace (s : String) : String :=
  String.mk (((s.data.dropWhile Char.isWhitespace).reverse.dropWhile
    Char.isWhitespace).reverse)

/-- `Query.Select` (finders.go lines 385-392): for each field, if
`strings.TrimSpace(f) != ""` the original (untrimmed) `f` is appended to
`q.addColumns`; blank / all-whitespace entries are dropped. -/
def selectFields (q : Query) (fields : List String) : Query :=
  match fields with
  | [] => q
  | f :: rest =>
    if trimSpace f != "" then
      selectFields { q with addColumns := q.addColumns ++ [f] } rest
    else
      selectFields q rest

/-! ### `strconv.Atoi` and `Query.Find` string-id handling -/

/-- Accumulating base-10 digit evaluation: `none` as soon as a non-digit is
met (`strconv.Atoi` fails on any non-digit character). -/
def digitsVal : List Char → Nat → Option Nat
  | [], acc => some acc
  | c :: cs, acc =>
    if c.isDigit then digitsVal cs (10 * acc + (c.toNat - 48)) else none

/-- The digit part of `strconv.Atoi`: at least one character, all digits. -/
def parseDigitsAll (l : List Char) : Option Nat :=
  match l with
  | [] => none
  | _ :: _ => digitsVal l 0

/-- `strconv.Atoi` (Go): optional single leading sign, then one or more
base-10 digits; an out-of-range value for a 64-bit `int` is an error
(`ErrRange`), which `Find` treats like any other parse failure, so it is
`none` here. -/
def atoi (s : String) : Option Int :=
  match s.data with
  | [] => none
  | '+' :: rest =>
    (parseDigitsAll rest).bind fun n =>
      if (n : Int) ≤ 9223372036854775807 then some (n : Int) else none
  | '-' :: rest =>
    (parseDigitsAll rest).bind fun n =>
      if (n : Int) ≤ 9223372036854775808 then some (-(n : Int)) else none
  | l =>
    (parseDigitsAll l).bind fun n =>
      if (n : Int) ≤ 9223372036854775807 then some (n : Int) else none

/-- `Query.Find`, string branch (finders.go lines 41-56): the lookup value
bound against the primary-key column.  For a non-empty string whose first
byte is not `'0'` (or whose length is 1), `strconv.Atoi` is attempted: on
success the parsed integer is the lookup value, on failure the raw string
is.  Otherwise (empty, or leading `'0'` with length > 1) the raw string is
used verbatim. -/
def findStringId (t : String) : Int ⊕ String :=
  match t.data with
  | [] => Sum.inr t
  | c :: rest =>
    if c ≠ '0' ∨ rest = [] then
      match atoi t with
      | some n => Sum.inl n
      | none => Sum.inr t
    else
      Sum.inr t

/-! ### The aggregate rewriter: `rLimitOffset` / `rLimit` stripping

`finders.go` lines 19-20 compile `(?i)(limit [0-9]+ offset [0-9]+)$` and
`(?i)(limit [0-9]+)$`; `Exists` (310-316) and `CountByField` (356-362) test
the first regex, strip its match, else test and strip the second.  An
end-anchored RE2 match is a suffix of the text matching the inner pattern,
and `FindString` picks the leftmost (longest) such suffix; since at most one
suffix can match either pattern, the stripped text is the prefix before the
unique matching suffix.  Case-insensitivity is modelled for ASCII letters
(the patterns' letters are ASCII). -/

/-- Drop a maximal run of ASCII digits (the greedy `[0-9]+`). -/
def dropDigits : List Char → List Char
  | [] => []
  | c :: cs => if c.isDigit then dropDigits cs else c :: cs

/-- Consume one-or-more digits (`[0-9]+`): fails unless the list starts
with a digit, then drops the maximal digit run. -/
def digits1 (l : List Char) : Option (List Char) :=
  match l with
  | [] => none
  | c :: cs => if c.isDigit then some (dropDigits cs) else none

/-- Match a lowercase literal pattern case-insensitively (`(?i)` on an
ASCII literal) against the front of the input, returning the rest. -/
def matchCI : List Char → List Char → Option (List Char)
  | [], l => some l
  | _ :: _, [] => none
  | p :: ps, c :: cs => if c.toLower = p then matchCI ps cs else none

/-- Does the whole list match `(?i)limit [0-9]+ offset [0-9]+` ? -/
def matchesLimitOffset (l : List Char) : Bool :=
  match matchCI ("limit ".data) l with
  | none => false
  | some r1 =>
    match digits1 r1 with
    | none => false
    | some r2 =>
      match matchCI (" offset ".data) r2 with
      | none => false
      | some r3 =>
        match digits1 r3 with
        | none => false
        | some r4 => r4.isEmpty

/-- Does the whole list match `(?i)limit [0-9]+` ? -/
def matchesLimit (l : List Char) : Bool :=
  match matchCI ("limit ".data) l with
  | none => false
  | some r1 =>
    match digits1 r1 with
    | none => false
    | some r2 => r2.isEmpty

/-- Prefix before the leftmost (longest) suffix satisfying `p`, if any:
the portion kept by `query[0 : len(query)-len(foundLimit)]`. -/
def findSplit (p : List Char → Bool) : List Char → Option (List Char)
  | [] => if p [] then some [] else none
  | c :: cs =>
    if p (c :: cs) then some []
    else (findSplit p cs).map (fun pre => c :: pre)

/-- Does some suffix of the list satisfy `p` (i.e. does the end-anchored
regex match)? -/
def anySuffix (p : List Char → Bool) : List Char → Bool
  | [] => p []
  | c :: cs => p (c :: cs) || anySuffix p cs

/-- The trailing-LIMIT stripping shared by `Exists` and `CountByField`
(finders.go lines 310-316 / 356-362): if `rLimitOffset` matches, remove its
(suffix) match; else if `rLimit` matches, remove its match; else leave the
SQL unchanged. -/
def stripLimitSuffix (s : String) : String :=
  match findSplit matchesLimitOffset s.data with
  | some pre => String.mk pre
  | none =>
    match findSplit matchesLimit s.data with
    | some pre => String.mk pre
    | none => s

/-! ### `Exists` / `Count` / `CountByField` cloning -/

/-- `Query.Exists` (finders.go lines 296-305), up to SQL generation, as a
transcription of its assignments: `tmpQuery := Q(q.Connection)`;
`q.Clone(tmpQuery)`; `tmpQuery.Paginator = nil`;
`tmpQuery.orderClauses = clauses{}`; `tmpQuery.limitResults = 0`.  No
statement in the body assigns through the receiver `q`, so the pair
(caller query after the call, executed temporary query) is returned. -/
def existsPrep (q : Query) : Query × Query :=
  let tmp := cloneInto q newQuery
  let tmp := { tmp with Paginator := none }
  let tmp := { tmp with orderClauses := [] }
  let tmp := { tmp with limitResults := 0 }
  (q, tmp)

/-- `Query.CountByField` (finders.go lines 342-351), up to SQL generation:
the identical clone-and-reset sequence as `Exists`. -/
def countByFieldPrep (q : Query) : Query × Query :=
  let tmp := cloneInto q newQuery
  let tmp := { tmp with Paginator := none }
  let tmp := { tmp with orderClauses := [] }
  let tmp := { tmp with limitResults := 0 }
  (q, tmp)

/-- `Query.Count` (finders.go lines 335-337) is `CountByField` with
field `"*"`; the field plays no role in the cloning. -/
def countPrep (q : Query) : Query × Query :=
  countByFieldPrep q

/-! ### `paginateModel` -/

/-- The Paginator update of `paginateModel` (finders.go lines 185-191),
given the result `ct` of the successful `Count` and the length `curLen` of
the materialized collection: `TotalEntriesSize = ct`;
`CurrentEntriesSize = curLen`; `TotalPages = TotalEntriesSize / PerPage`
with `+1` when `TotalEntriesSize % PerPage > 0`.  Go `/` and `%` on `int`
truncate toward zero (`Int.tdiv` / `Int.tmod`) and PANIC when `PerPage = 0`;
the fault is modelled as `none`. -/
def paginateCompute (p : Paginator) (ct curLen : Int) : Option Paginator :=
  let p := { p with TotalEntriesSize := ct, CurrentEntriesSize := curLen }
  if p.PerPage = 0 then none
  else
    let tp := p.TotalEntriesSize.tdiv p.PerPage
    let tp := if p.TotalEntriesSize.tmod p.PerPage > 0 then tp + 1 else tp
    some { p with TotalPages := tp }

/-- The Paginator produced by a successful `paginateCompute` (the
`PerPage ≠ 0` branch), named for use in statements. -/
def paginateResult (p : Paginator) (ct curLen : Int) : Paginator :=
  { p with
    TotalEntriesSize := ct, CurrentEntriesSize := curLen,
    TotalPages :=
      if 0 < ct.tmod p.PerPage then ct.tdiv p.PerPage + 1
      else ct.tdiv p.PerPage }

/-- `Query.paginateModel` (finders.go lines 171-193): a no-op when no
Paginator is attached; otherwise the Paginator update above (the `Count`
call is parameterised by its successful result `ct`). -/
def paginateModel (q : Query) (ct curLen : Int) : Option Query :=
  match q.Paginator with
  | none => some q
  | some p => (paginateCompute p ct curLen).map fun p2 => { q with Paginator := some p2 }

/-! ### Association resolution: error flow of `eagerAssociations` -/

/-- Go errors as seen by `eagerAssociations`: `sql.ErrNoRows`, a plain
error, or a wrapped error (`errors.Wrap`); `nil` is `Option.none`. -/
inductive GoErr where
  | noRows : GoErr
  | errMsg : String → GoErr
  | wrap : String → GoErr → GoErr
deriving DecidableEq, Repr

/-- `errors.Cause`: unwrap `errors.Wrap` layers down to the root error. -/
def GoErr.cause : GoErr → GoErr
  | .wrap _ e => e.cause
  | .noRows => .noRows
  | .errMsg m => .errMsg m

/-- The `reflect.Kind` of an association's target, as dispatched on in
finders.go lines 265-271. -/
inductive AKind where
  | Slice | Array | Struct | Other
deriving DecidableEq, Repr

/-- One discovered association, seen through the outcomes that matter to
the resolution loop: whether it is skipped, its target kind, the result of
its `All`/`First` fetch (`none` = success), whether it declares inner
associations, and the first error produced by resolving them (if any). -/
structure Assoc where
  skipped : Bool
  kind : AKind
  fetchResult : Option GoErr
  hasInners : Bool
  innerErr : Option GoErr
deriving DecidableEq, Repr

/-- The value of the shared `err` variable after the fetch dispatch
(finders.go lines 265-271): `All` for Slice/Array, `First` for Struct;
for any other kind neither branch runs and `err` keeps its previous
value. -/
def fetchErr (a : Assoc) (errIn : Option GoErr) : Option GoErr :=
  match a.kind with
  | .Slice => a.fetchResult
  | .Array => a.fetchResult
  | .Struct => a.fetchResult
  | .Other => errIn

/-- The association loop of `eagerAssociations` (finders.go lines 240-289),
threading the shared `err` variable.  Returns the error the call returns
(`none` for the final `return nil`) and the number of list entries the loop
iterated over before returning.  Per entry: skipped associations are passed
over (`continue`); otherwise the fetch runs, then
`if err != nil && errors.Cause(err) != sql.ErrNoRows { return err }`
aborts, then the inner associations are resolved, any inner error being
returned immediately. -/
def eagerLoop : List Assoc → Option GoErr → Option GoErr × Nat
  | [], _ => (none, 0)
  | a :: rest, errIn =>
    if a.skipped then
      let r := eagerLoop rest errIn
      (r.1, r.2 + 1)
    else
      match fetchErr a errIn with
      | some e =>
        if e.cause = GoErr.noRows then
          if a.hasInners then
            match a.innerErr with
            | some ie => (some ie, 1)
            | none =>
              let r := eagerLoop rest none
              (r.1, r.2 + 1)
          else
            let r := eagerLoop rest (some e)
            (r.1, r.2 + 1)
        else (some e, 1)
      | none =>
        if a.hasInners then
          match a.innerErr with
          | some ie => (some ie, 1)
          | none =>
            let r := eagerLoop rest none
            (r.1, r.2 + 1)
        else
          let r := eagerLoop rest none
          (r.1, r.2 + 1)

/-! ### The eager flags of a Query and its Connection -/

/-- The eager flag of the query (`q.eager`) and of its shared connection
(`q.Connection.eager`), the state the terminal finders must reset. -/
structure EagerFlags where
  qEager : Bool
  connEager : Bool
deriving DecidableEq, Repr

/-- Modelled from the spec: `disableEager` (query.go, not under src/)
resets the eager flag on the query and on its connection ("the eager flag
on the query and on its Connection is reset"). -/
def disableEager (_s : EagerFlags) : EagerFlags :=
  { qEager := false, connEager := false }

/-- Flag/error behaviour of `eagerAssociations` on a struct target
(finders.go lines 231-238): if `associations.ForStruct` fails, its error is
returned with the flags untouched; otherwise `q.eager = false` and
`q.Connection.eager = false` are set before the loop runs, and the loop's
result `resolveErr` is returned. -/
def eagerAssocFlags (s : EagerFlags) (discoveryErr resolveErr : Option GoErr) :
    EagerFlags × Option GoErr :=
  match discoveryErr with
  | some e => (s, some e)
  | none => ({ qEager := false, connEager := false }, resolveErr)

/-- `Query.First` post-fetch eager block (finders.go lines 86-91): when
`q.eager` is set, run `eagerAssociations`, then always `q.disableEager()`,
then return the resolution error. -/
def firstEagerPhase (s : EagerFlags) (dErr rErr : Option GoErr) :
    EagerFlags × Option GoErr :=
  if s.qEager then
    let r := eagerAssocFlags s dErr rErr
    (disableEager r.1, r.2)
  else (s, none)

/-- `Query.Last` post-fetch eager block (finders.go lines 122-126):
identical to `First`'s. -/
def lastEagerPhase (s : EagerFlags) (dErr rErr : Option GoErr) :
    EagerFlags × Option GoErr :=
  if s.qEager then
    let r := eagerAssocFlags s dErr rErr
    (disableEager r.1, r.2)
  else (s, none)

/-- `Query.All` post-fetch eager block (finders.go lines 162-166):
identical to `First`'s. -/
def allEagerPhase (s : EagerFlags) (dErr rErr : Option GoErr) :
    EagerFlags × Option GoErr :=
  if s.qEager then
    let r := eagerAssocFlags s dErr rErr
    (disableEager r.1, r.2)
  else (s, none)

/-- `Connection.Load` (finders.go lines 200-208): unconditionally runs
`eagerAssociations` on a fresh query and then `q.disableEager()`, returning
the resolution error. -/
def loadPhase (s : EagerFlags) (dErr rErr : Option GoErr) :
    EagerFlags × Option GoErr :=
  let r := eagerAssocFlags s dErr rErr
  (disableEager r.1, r.2)

/-! ### `hasOneAssociation.SQLConstraint` -/

/-- `hasOneAssociation` (has_one_association.go), the fields
`SQLConstraint` reads: the owner's primary-key value (of an opaque type
`α`, Go `interface{}`), the owner type name, and the optional foreign-key
override `fkID`. -/
structure hasOneAssociation (α : Type) where
  ownerID : α
  ownerName : String
  fkID : String

/-- `strings.ToLower` (Go): lowercase every character.  (Go lowercases
Unicode; the model maps `Char.toLower`, which agrees on the ASCII type
names involved.) -/
def toLowerStr (s : String) : String :=
  String.mk (s.data.map Char.toLower)

/-- `hasOneAssociation.SQLConstraint` (has_one_association.go lines 42-50):
`tn := strings.ToLower(h.ownerName)`; `condition := tn + "_id = ?"`,
replaced by `h.fkID + " = ?"` when `fkID` is non-empty; the args are
exactly `[h.ownerID]`. -/
def hasOneAssociation.SQLConstraint {α : Type} (h : hasOneAssociation α) :
    String × List α :=
  let tn := toLowerStr h.ownerName
  let condition := tn ++ "_id = ?"
  let condition := if h.fkID ≠ "" then h.fkID ++ " = ?" else condition
  (condition, [h.ownerID])

/-! ## Helper lemmas -/

theorem ceil_charact_nat (a b : Nat) (hb : 0 < b) :
    a ≤ b * (if 0 < a % b then a / b + 1 else a / b) ∧
    b * (if 0 < a % b then a / b + 1 else a / b) < a + b ∧
    ((if 0 < a % b then a / b + 1 else a / b) = 0 ↔ a = 0) := by
  have hdm : b * (a / b) + a % b = a := Nat.div_add_mod a b
  have hlt : a % b < b := Nat.mod_lt a hb
  revert hdm hlt
  generalize a / b = d
  generalize a % b = r
  intro hdm hlt
  by_cases hr : 0 < r
  · rw [if_pos hr]
    have hmul : b * (d + 1) = b * d + b := by ring
    obtain ⟨m, hm⟩ : ∃ m, m = b * d := ⟨_, rfl⟩
    rw [hmul]
    rw [← hm] at hdm ⊢
    omega
  · rw [if_neg hr]
    have hr0 : r = 0 := by omega
    subst hr0
    rw [Nat.add_zero] at hdm
    refine ⟨hdm.ge, by rw [hdm]; omega, ?_⟩
    constructor
    · intro hd
      subst hd
      simpa using hdm.symm
    · intro ha
      subst ha
      rcases Nat.mul_eq_zero.mp hdm with h | h <;> omega

theorem ceil_charact_int (A B : Int) (hB : 0 < B) (hA : 0 ≤ A) :
    A ≤ B * (if 0 < A.tmod B then A.tdiv B + 1 else A.tdiv B) ∧
    B * ((if 0 < A.tmod B then A.tdiv B + 1 else A.tdiv B) - 1) < A ∧
    ((if 0 < A.tmod B then A.tdiv B + 1 else A.tdiv B) = 0 ↔ A = 0) := by
  obtain ⟨a, rfl⟩ := Int.eq_ofNat_of_zero_le hA
  obtain ⟨b, rfl⟩ := Int.eq_ofNat_of_zero_le (le_of_lt hB)
  have hb0 : 0 < b := by exact_mod_cast hB
  have hdiv : (a : Int).tdiv (b : Int) = ((a / b : Nat) : Int) := (Int.ofNat_tdiv a b).symm
  have hmod : (a : Int).tmod (b : Int) = ((a % b : Nat) : Int) := (Int.ofNat_tmod a b).symm
  obtain ⟨h1, h2, h3⟩ := ceil_charact_nat a b hb0
  rw [hdiv, hmod]
  by_cases hr : 0 < a % b
  · have hrz : (0 : Int) < ((a % b : Nat) : Int) := by exact_mod_cast hr
    rw [if_pos hrz]
    rw [if_pos hr] at h1 h2 h3
    refine ⟨?_, ?_, ?_⟩
    · exact_mod_cast h1
    · have e : ((b : Int)) * ((((a / b : Nat) : Int) + 1) - 1) = (b : Int) * ((a / b : Nat) : Int) := by
        ring
      rw [e]
      have h2' : b * (a / b) < a := by
        have e2 : b * (a / b + 1) = b * (a / b) + b := by ring
        linarith [h2, e2]
      exact_mod_cast h2'
    · constructor
      · intro hh
        have : a / b + 1 = 0 := by exact_mod_cast hh
        exact_mod_cast h3.mp this
      · intro hh
        have : a = 0 := by exact_mod_cast hh
        exact_mod_cast h3.mpr this
  · have hrz : ¬ ((0 : Int) < ((a % b : Nat) : Int)) := by exact_mod_cast hr
    rw [if_neg hrz]
    rw [if_neg hr] at h1 h2 h3
    refine ⟨?_, ?_, ?_⟩
    · exact_mod_cast h1
    · have e : ((b : Int)) * (((a / b : Nat) : Int) - 1) = (b : Int) * ((a / b : Nat) : Int) - (b : Int) := by
        ring
      rw [e]
      have h2' : ((b : Int)) * ((a / b : Nat) : Int) < (a : Int) + (b : Int) := by
        exact_mod_cast h2
      linarith
    · constructor
      · intro hh
        have : a / b = 0 := by exact_mod_cast hh
        exact_mod_cast h3.mp this
      · intro hh
        have : a = 0 := by exact_mod_cast hh
        exact_mod_cast h3.mpr this

theorem findSplit_eq_some {p : List Char → Bool} :
    ∀ {l pre : List Char}, findSplit p l = some pre →
      ∃ suf, l = pre ++ suf ∧ p suf = true := by
  intro l
  induction l with
  | nil =>
    intro pre h
    simp only [findSplit] at h
    split at h
    · rename_i hp
      cases h
      exact ⟨[], rfl, hp⟩
    · simp at h
  | cons c cs ih =>
    intro pre h
    simp only [findSplit] at h
    split at h
    · rename_i hp
      cases h
      exact ⟨c :: cs, rfl, hp⟩
    · rename_i hp
      cases hfs : findSplit p cs with
      | none => rw [hfs] at h; simp at h
      | some pre2 =>
        rw [hfs] at h
        simp at h
        obtain ⟨suf, hsuf, hsufp⟩ := ih hfs
        subst h
        exact ⟨suf, by rw [List.cons_append, ← hsuf], hsufp⟩

theorem anySuffix_eq_isSome (p : List Char → Bool) (l : List Char) :
    anySuffix p l = (findSplit p l).isSome := by
  induction l with
  | nil =>
    simp only [anySuffix, findSplit]
    split
    · rename_i hp
      simp [hp]
    · rename_i hp
      simp [Bool.not_eq_true] at hp
      simp [hp]
  | cons c cs ih =>
    simp only [anySuffix, findSplit]
    split
    · rename_i hp
      simp [hp]
    · rename_i hp
      simp [Bool.not_eq_true] at hp
      simp [hp, ih]

/-! ## Claim theorems -/

/-- Claim C1, counterexample: on a query with a previously chained
`Order("name ASC")`, the order-clause list `Last` hands to the SELECT is
NOT just `created_at DESC, id DESC` — the caller's clause is still there,
in front. -/
theorem last_order_counterexample :
    (lastQuery (Query.Order newQuery "name ASC")).orderClauses =
      ["name ASC", "created_at DESC, id DESC"] ∧
    (lastQuery (Query.Order newQuery "name ASC")).orderClauses ≠
      ["created_at DESC, id DESC"] := by
  constructor
  · rfl
  · decide

/-- Claim C1 (amended): `Last` applies LIMIT 1 and APPENDS
`created_at DESC, id DESC` to the caller's order clauses, so a previously
chained `Order` is combined with (and precedes) the forced order rather
than being replaced by it. -/
theorem last_appends_forced_order (q : Query) :
    (lastQuery q).orderClauses = q.orderClauses ++ ["created_at DESC, id DESC"] ∧
    (lastQuery q).limitResults = 1 :=
  ⟨rfl, rfl⟩

/-- Claim C4: `Exists` and `Count`/`CountByField` leave the caller's query
unchanged; the internal clone they execute has no Paginator, no ORDER
clauses and no LIMIT, while keeping the caller's WHERE clauses, eager
state and selected columns. -/
theorem exists_count_frame (q : Query) :
    (existsPrep q).1 = q ∧ (countByFieldPrep q).1 = q ∧ (countPrep q).1 = q ∧
    (existsPrep q).2.Paginator = none ∧
    (existsPrep q).2.orderClauses = [] ∧
    (existsPrep q).2.limitResults = 0 ∧
    (existsPrep q).2.whereClauses = q.whereClauses ∧
    (existsPrep q).2.eager = q.eager ∧
    (existsPrep q).2.eagerFields = q.eagerFields ∧
    (existsPrep q).2.addColumns = q.addColumns ∧
    (countByFieldPrep q).2.Paginator = none ∧
    (countByFieldPrep q).2.orderClauses = [] ∧
    (countByFieldPrep q).2.limitResults = 0 ∧
    (countByFieldPrep q).2.whereClauses = q.whereClauses ∧
    (countByFieldPrep q).2.eager = q.eager ∧
    (countByFieldPrep q).2.eagerFields = q.eagerFields ∧
    (countByFieldPrep q).2.addColumns = q.addColumns :=
  ⟨rfl, rfl, rfl, rfl, rfl, rfl, rfl, rfl, rfl, rfl, rfl, rfl, rfl, rfl, rfl,
    rfl, rfl⟩

/-- Claim C7, counterexample: `Select` appends the ORIGINAL field string,
not its whitespace-trimmed form — `Select(" name ")` registers `" name "`,
which is not the trimmed column name `"name"`. -/
theorem select_trim_counterexample :
    (selectFields newQuery [" name "]).addColumns = [" name "] ∧
    trimSpace " name " = "name" ∧
    (selectFields newQuery [" name "]).addColumns ≠ ["name"] := by
  refine ⟨?_, ?_, ?_⟩ <;> decide

/-- Claim C7 (amended): `Select` appends exactly the field strings whose
whitespace-trimmed value is non-blank, each kept verbatim (untrimmed), in
order; blank or all-whitespace entries are dropped, and nothing else on
the query changes. -/
theorem select_appends_nonblank (q : Query) (fields : List String) :
    selectFields q fields =
      { q with addColumns := q.addColumns ++ fields.filter (fun f => trimSpace f != "") } := by
  induction fields generalizing q with
  | nil => simp [selectFields]
  | cons f rest ih =>
    by_cases hf : trimSpace f != ""
    · simp only [selectFields, hf, if_true, List.filter_cons, ih]
      simp [hf]
    · simp only [selectFields, hf, if_false, List.filter_cons, ih]
      simp at hf
      simp [hf]

/-- Claim C8: for every terminal finder (`First`, `Last`, `All`, `Load`)
run with the eager flag set, once the call's eager block finishes —
whether association resolution succeeded or failed — the eager flag on the
query and on its connection is off. -/
theorem eager_flag_reset (s : EagerFlags) (dErr rErr : Option GoErr)
    (h : s.qEager = true) :
    ((firstEagerPhase s dErr rErr).1.qEager = false ∧
      (firstEagerPhase s dErr rErr).1.connEager = false) ∧
    ((lastEagerPhase s dErr rErr).1.qEager = false ∧
      (lastEagerPhase s dErr rErr).1.connEager = false) ∧
    ((allEagerPhase s dErr rErr).1.qEager = false ∧
      (allEagerPhase s dErr rErr).1.connEager = false) ∧
    ((loadPhase s dErr rErr).1.qEager = false ∧
      (loadPhase s dErr rErr).1.connEager = false) := by
  cases dErr <;>
    simp [firstEagerPhase, lastEagerPhase, allEagerPhase, loadPhase,
      eagerAssocFlags, disableEager, h]

/-- Claim C8 witness: concrete run with the eager flag set on both the
query and the connection and a failing resolution. -/
theorem eager_flag_reset_witness :
    ((firstEagerPhase ⟨true, true⟩ none (some (GoErr.errMsg "boom"))).1.qEager = false ∧
      (firstEagerPhase ⟨true, true⟩ none (some (GoErr.errMsg "boom"))).1.connEager = false) ∧
    ((lastEagerPhase ⟨true, true⟩ none (some (GoErr.errMsg "boom"))).1.qEager = false ∧
      (lastEagerPhase ⟨true, true⟩ none (some (GoErr.errMsg "boom"))).1.connEager = false) ∧
    ((allEagerPhase ⟨true, true⟩ none (some (GoErr.errMsg "boom"))).1.qEager = false ∧
      (allEagerPhase ⟨true, true⟩ none (some (GoErr.errMsg "boom"))).1.connEager = false) ∧
    ((loadPhase ⟨true, true⟩ none (some (GoErr.errMsg "boom"))).1.qEager = false ∧
      (loadPhase ⟨true, true⟩ none (some (GoErr.errMsg "boom"))).1.connEager = false) :=
  eager_flag_reset ⟨true, true⟩ none (some (GoErr.errMsg "boom")) rfl

/-- Claim C9: a has-one association with no foreign-key override produces
the condition `<lowercased owner name>_id = ?` with exactly the single
owner primary-key value as bound argument; with an override configured the
condition is `<override column> = ?` with the same single argument. -/
theorem hasOne_sqlConstraint_spec {α : Type} (h : hasOneAssociation α) :
    (h.fkID = "" →
      h.SQLConstraint = (toLowerStr h.ownerName ++ "_id = ?", [h.ownerID])) ∧
    (h.fkID ≠ "" →
      h.SQLConstraint = (h.fkID ++ " = ?", [h.ownerID])) := by
  constructor <;> intro hf <;> simp [hasOneAssociation.SQLConstraint, hf]

/-- Claim C9 witness: owner type `User` with primary key 7 yields
`user_id = ?` bound to `[7]`; override `owner_id` yields `owner_id = ?`
bound to `[7]`. -/
theorem hasOne_sqlConstraint_witness :
    hasOneAssociation.SQLConstraint ⟨(7 : Int), "User", ""⟩ = ("user_id = ?", [(7 : Int)]) ∧
    hasOneAssociation.SQLConstraint ⟨(7 : Int), "User", "owner_id"⟩ =
      ("owner_id = ?", [(7 : Int)]) :=
  ⟨((hasOne_sqlConstraint_spec ⟨(7 : Int), "User", ""⟩).1 rfl).trans (by decide),
    (hasOne_sqlConstraint_spec ⟨(7 : Int), "User", "owner_id"⟩).2 (by decide)⟩

/-- Claim C10: `paginateModel` divides by `Paginator.PerPage` without any
guard: with a Paginator attached and `PerPage = 0` the computation faults
(integer division by zero, modelled as `none`) instead of returning an
error value, and it is total when `PerPage > 0`. -/
theorem paginate_perPage_zero_fault (q : Query) (ct curLen : Int)
    (p : Paginator) (hp : q.Paginator = some p) :
    (p.PerPage = 0 → paginateModel q ct curLen = none) ∧
    (0 < p.PerPage → ∃ q2, paginateModel q ct curLen = some q2) := by
  constructor
  · intro h0
    simp [paginateModel, hp, paginateCompute, h0]
  · intro hpos
    have hne : p.PerPage ≠ 0 := by omega
    simp [paginateModel, hp, paginateCompute, hne]

/-- Claim C10 witness: an attached Paginator with `PerPage = 0` faults on
a successful `Count` of 5. -/
theorem paginate_perPage_zero_fault_witness :
    paginateModel { newQuery with Paginator := some ⟨0, 0, 0, 0⟩ } 5 0 = none :=
  (paginate_perPage_zero_fault { newQuery with Paginator := some ⟨0, 0, 0, 0⟩ }
    5 0 ⟨0, 0, 0, 0⟩ rfl).1 rfl

/-- Claim C2: for a non-empty string id whose first character is not `'0'`
(or whose length is 1), `Find` attempts integer parsing — on success the
parsed integer is the lookup value, on failure the raw string is; a string
starting with `'0'` of length greater than 1 is never coerced and is used
verbatim. -/
theorem find_string_id_spec (t : String) (c : Char) (rest : List Char)
    (hd : t.data = c :: rest) :
    ((c ≠ '0' ∨ rest = []) →
      ((∃ n, atoi t = some n ∧ findStringId t = Sum.inl n) ∨
        (atoi t = none ∧ findStringId t = Sum.inr t))) ∧
    (c = '0' → rest ≠ [] → findStringId t = Sum.inr t) := by
  have hEq : findStringId t =
      (if c ≠ '0' ∨ rest = [] then
        (match atoi t with
          | some n => Sum.inl n
          | none => Sum.inr t)
      else Sum.inr t) := by
    unfold findStringId
    rw [hd]
  constructor
  · intro hcond
    rw [hEq, if_pos hcond]
    cases hato : atoi t with
    | some n => exact Or.inl ⟨n, rfl, rfl⟩
    | none => exact Or.inr ⟨rfl, rfl⟩
  · intro hc hrest
    rw [hEq, if_neg (by simp [hc, hrest])]

/-- Claim C2 witness: `"42"` is parsed (and in fact yields the integer 42);
`"007"` is used verbatim as a string. -/
theorem find_string_id_spec_witness :
    ((∃ n, atoi "42" = some n ∧ findStringId "42" = Sum.inl n) ∨
      (atoi "42" = none ∧ findStringId "42" = Sum.inr "42")) ∧
    findStringId "007" = Sum.inr "007" :=
  ⟨(find_string_id_spec "42" '4' ['2'] (by decide)).1 (Or.inl (by decide)),
    (find_string_id_spec "007" '0' ['0', '7'] (by decide)).2 rfl (by decide)⟩

/-- Claim C3: the aggregate rewriting of `Count`/`Exists` removes a
trailing `LIMIT <int> OFFSET <int>`, or else a trailing `LIMIT <int>`
(case-insensitive, end-anchored), preferring the longer LIMIT+OFFSET
pattern so no dangling OFFSET remains; a string with no such trailing
clause is unchanged, and the stripped result is exactly the prefix before
the matched LIMIT token. -/
theorem strip_limit_spec (s : String) :
    (anySuffix matchesLimitOffset s.data = false →
      anySuffix matchesLimit s.data = false →
      stripLimitSuffix s = s) ∧
    (anySuffix matchesLimitOffset s.data = true →
      ∃ pre suf, s.data = pre ++ suf ∧ matchesLimitOffset suf = true ∧
        stripLimitSuffix s = String.mk pre) ∧
    (anySuffix matchesLimitOffset s.data = false →
      anySuffix matchesLimit s.data = true →
      ∃ pre suf, s.data = pre ++ suf ∧ matchesLimit suf = true ∧
        stripLimitSuffix s = String.mk pre) := by
  refine ⟨?_, ?_, ?_⟩
  · intro h1 h2
    rw [anySuffix_eq_isSome] at h1 h2
    have e1 : findSplit matchesLimitOffset s.data = none :=
      Option.not_isSome_iff_eq_none.mp (by simp [h1])
    have e2 : findSplit matchesLimit s.data = none :=
      Option.not_isSome_iff_eq_none.mp (by simp [h2])
    simp [stripLimitSuffix, e1, e2]
  · intro h1
    rw [anySuffix_eq_isSome] at h1
    obtain ⟨pre, hpre⟩ := Option.isSome_iff_exists.mp h1
    obtain ⟨suf, hsuf, hp⟩ := findSplit_eq_some hpre
    exact ⟨pre, suf, hsuf, hp, by simp [stripLimitSuffix, hpre]⟩
  · intro h1 h2
    rw [anySuffix_eq_isSome] at h1 h2
    have e1 : findSplit matchesLimitOffset s.data = none :=
      Option.not_isSome_iff_eq_none.mp (by simp [h1])
    obtain ⟨pre, hpre⟩ := Option.isSome_iff_exists.mp h2
    obtain ⟨suf, hsuf, hp⟩ := findSplit_eq_some hpre
    exact ⟨pre, suf, hsuf, hp, by simp [stripLimitSuffix, e1, hpre]⟩

/-- Claim C3 witness: a query ending in `LIMIT 10 OFFSET 20` is stripped to
the prefix before `LIMIT`; one ending in `limit 5` likewise; one with no
trailing clause is unchanged. -/
theorem strip_limit_spec_witness :
    (∃ pre suf, ("SELECT a FROM b LIMIT 10 OFFSET 20").data = pre ++ suf ∧
      matchesLimitOffset suf = true ∧
      stripLimitSuffix "SELECT a FROM b LIMIT 10 OFFSET 20" = String.mk pre) ∧
    stripLimitSuffix "SELECT a FROM b" = "SELECT a FROM b" ∧
    (∃ pre suf, ("SELECT a FROM b limit 5").data = pre ++ suf ∧
      matchesLimit suf = true ∧
      stripLimitSuffix "SELECT a FROM b limit 5" = String.mk pre) :=
  ⟨(strip_limit_spec "SELECT a FROM b LIMIT 10 OFFSET 20").2.1 (by decide),
    (strip_limit_spec "SELECT a FROM b").1 (by decide) (by decide),
    (strip_limit_spec "SELECT a FROM b limit 5").2.2 (by decide) (by decide)⟩

theorem paginateModel_some (q : Query) (p : Paginator) (hp : q.Paginator = some p)
    (ct curLen : Int) :
    paginateModel q ct curLen =
      (paginateCompute p ct curLen).map fun p2 => { q with Paginator := some p2 } := by
  unfold paginateModel
  rw [hp]

/-- Claim C5: with a Paginator attached (and a successful `Count` result
`ct ≥ 0`, `PerPage > 0`), `paginateModel` records `ct` and the collection
length and sets `TotalPages` to the ceiling of `ct / PerPage` — i.e. the
least `T` with `ct ≤ PerPage * T` — so `TotalPages = 0` iff `ct = 0`; with
no Paginator attached it is a no-op. -/
theorem paginateModel_spec (q : Query) (ct curLen : Int) :
    (q.Paginator = none → paginateModel q ct curLen = some q) ∧
    (∀ p, q.Paginator = some p → 0 < p.PerPage → 0 ≤ ct →
      ∃ p2, paginateModel q ct curLen = some { q with Paginator := some p2 } ∧
        p2.PerPage = p.PerPage ∧
        p2.TotalEntriesSize = ct ∧
        p2.CurrentEntriesSize = curLen ∧
        ct ≤ p.PerPage * p2.TotalPages ∧
        p.PerPage * (p2.TotalPages - 1) < ct ∧
        (p2.TotalPages = 0 ↔ ct = 0)) := by
  constructor
  · intro h
    unfold paginateModel
    rw [h]
  · intro p hp hP hct
    have hne : p.PerPage ≠ 0 := by omega
    have hcomp : paginateCompute p ct curLen = some (paginateResult p ct curLen) := by
      simp [paginateCompute, paginateResult, hne]
    obtain ⟨g1, g2, g3⟩ := ceil_charact_int ct p.PerPage hP hct
    refine ⟨paginateResult p ct curLen, ?_, rfl, rfl, rfl, ?_, ?_, ?_⟩
    · rw [paginateModel_some q p hp ct curLen, hcomp]
      rfl
    · exact g1
    · exact g2
    · exact g3

/-- Claim C5 witness: `PerPage = 10`, `Count = 23`, 10 rows materialized:
the attached-Paginator branch applies, and (as its conclusion shows)
`TotalPages` is the least page count covering 23 entries. -/
theorem paginateModel_spec_witness :
    ∃ p2, paginateModel { newQuery with Paginator := some ⟨10, 0, 0, 0⟩ } 23 10 =
        some { newQuery with Paginator := some p2 } ∧
      p2.PerPage = (⟨10, 0, 0, 0⟩ : Paginator).PerPage ∧
      p2.TotalEntriesSize = 23 ∧
      p2.CurrentEntriesSize = 10 ∧
      (23 : Int) ≤ (⟨10, 0, 0, 0⟩ : Paginator).PerPage * p2.TotalPages ∧
      (⟨10, 0, 0, 0⟩ : Paginator).PerPage * (p2.TotalPages - 1) < 23 ∧
      (p2.TotalPages = 0 ↔ (23 : Int) = 0) :=
  (paginateModel_spec { newQuery with Paginator := some ⟨10, 0, 0, 0⟩ } 23 10).2
    ⟨10, 0, 0, 0⟩ rfl (by decide) (by decide)

/-- Claim C6: in the association loop, a struct-kind (single-valued)
association whose fetch fails with a no-rows cause is tolerated: the error
is swallowed (not returned; with an empty remainder the loop returns nil)
and the loop continues with the remaining associations; a fetch error
whose cause is not no-rows aborts immediately — exactly one entry was
processed, the remaining associations are untouched — and that error is
returned to the caller. -/
theorem eager_noRows_spec (a : Assoc) (rest : List Assoc) (errIn : Option GoErr)
    (e : GoErr) (hsk : a.skipped = false) (hk : a.kind = AKind.Struct)
    (hf : a.fetchResult = some e) :
    (e.cause = GoErr.noRows → a.hasInners = false →
      eagerLoop (a :: rest) errIn =
        ((eagerLoop rest (some e)).1, (eagerLoop rest (some e)).2 + 1) ∧
      (rest = [] → eagerLoop (a :: rest) errIn = (none, 1))) ∧
    (e.cause ≠ GoErr.noRows → eagerLoop (a :: rest) errIn = (some e, 1)) := by
  have hfe : fetchErr a errIn = some e := by
    unfold fetchErr
    rw [hk]
    exact hf
  constructor
  · intro hc hin
    constructor
    · simp [eagerLoop, hsk, hfe, hc, hin]
    · intro hrest
      subst hrest
      simp [eagerLoop, hsk, hfe, hc, hin]
  · intro hc
    simp [eagerLoop, hsk, hfe, hc]

/-- Claim C6 witness: a no-rows fetch on a single struct association
yields a nil overall result; a non-no-rows fetch error aborts with that
error after one entry, leaving the second association unprocessed. -/
theorem eager_noRows_spec_witness :
    eagerLoop [⟨false, AKind.Struct, some GoErr.noRows, false, none⟩] none =
      (none, 1) ∧
    eagerLoop [⟨false, AKind.Struct, some (GoErr.errMsg "boom"), false, none⟩,
        ⟨false, AKind.Struct, none, false, none⟩] none =
      (some (GoErr.errMsg "boom"), 1) :=
  ⟨((eager_noRows_spec ⟨false, AKind.Struct, some GoErr.noRows, false, none⟩ []
      none GoErr.noRows rfl rfl rfl).1 rfl rfl).2 rfl,
    (eager_noRows_spec ⟨false, AKind.Struct, some (GoErr.errMsg "boom"), false, none⟩
      [⟨false, AKind.Struct, none, false, none⟩] none (GoErr.errMsg "boom")
      rfl rfl rfl).2 (by decide)⟩

end Pop
